import Mathlib

/-!
Shallow embedding of `src/components/Blockchain/contract.ts`, the
contract-interaction client of the encryptoNFT repository.

Modelling conventions, mirroring the JavaScript/ethers-v6 semantics of the
source file:

* A fallible external call is a value of `Except JSError α`: `.ok` is a
  resolved promise, `.error` a rejection / thrown exception.
* A JavaScript value that may be `undefined` (because optional chaining
  `contract?.method(...)` short-circuits when `contract` is `null`) is an
  `Option`: `none` is `undefined`.
* `JSNum` is the result of the JavaScript `Number(...)` conversion: either an
  integer or `NaN` (`Number(undefined)` is `NaN`).
* The module-level mutable bindings `provider`, `signer`, `contract` form the
  `ConnState` record; functions that read them take the state (or its
  `contract` projection) as an argument, and the operation-level transition
  semantics `step` returns the resulting state explicitly.
* The behaviour of the deployed contract, of the wallet and of the network is
  an explicit model (`ContractModel`, `TxModel`, ...) quantified over in the
  theorems: the client is verified for every behaviour of its external
  collaborators.
-/

namespace ContractClient

/-- A JavaScript exception: either a plain `Error` with a message (as thrown
by `throw new Error(msg)` or by a rejected contract call) or a `TypeError`
(as raised when reading a property of `undefined`). -/
inductive JSError where
  | error (msg : String)
  | typeError (msg : String)
  deriving DecidableEq, Repr

/-- Result of the JavaScript `Number(...)` conversion: an integer, or `NaN`
(for example `Number(undefined)`). -/
inductive JSNum where
  | nan
  | int (n : Int)
  deriving DecidableEq, Repr

/-- A raw receipt log entry. Logs are opaque to the client; only the
contract interface can decode them, so we identify them by an index. -/
abbrev Log := Nat

/-- A decoded event as produced by `interface.parseLog`: a name and the
argument list (arguments the client reads are numeric). -/
structure Event where
  name : String
  args : List Int
  deriving DecidableEq, Repr

/-- A transaction receipt: the ordered list of emitted log entries. -/
structure Receipt where
  logs : List Log
  deriving DecidableEq, Repr

/-- A transaction handle as returned by a contract write method. `wait`
models `tx.wait()`: it rejects, or resolves to a receipt or to `null`. -/
structure TxModel where
  wait : Except JSError (Option Receipt)
  deriving Repr

/-- An encrypted file key: a raw byte buffer (`Uint8Array`), opaque to the
client and passed through unmodified. -/
abbrev FileKey := List Nat

/-- The two-array response of the contract range queries:
`result[0]` the token ids, `result[1]` the cid hashes. -/
structure RangeResult where
  tokenIds : List Int
  cidHashs : List String
  deriving DecidableEq, Repr

/-- Behaviour model of the bound `ethers.Contract` handle: one field per
contract method the client invokes, plus the interface decoder `parseLog`
(ethers v6 `parseLog` returns `null`, i.e. `none`, on a log that does not
belong to this interface — it does not throw). -/
structure ContractModel where
  parseLog : Log → Option Event
  mintToken : String → List FileKey → Except JSError TxModel
  getTokensInRange : Int → Int → Except JSError RangeResult
  getSharedTokensInRange : Int → Int → Except JSError RangeResult
  getSharedWithAddresses : Int → Except JSError (List String)
  transferToken : String → Int → Except JSError TxModel
  shareToken : Int → List String → Except JSError TxModel
  burnToken : Int → Int → Except JSError TxModel
  getSupply : Except JSError Int
  getSharedWithSupply : Except JSError Int
  reencrypt : Int → FileKey → String → Except JSError (Option (List String))
  revokeTokenAccess : Int → String → Except JSError TxModel
  revokeAllSharedAccess : Int → Int → Except JSError TxModel
  maxUsersToRemove : Except JSError Int

/-- Behaviour model of the wallet provider (`BrowserProvider`): the
`provider.send("eth_requestAccounts", [])` round trip. -/
structure ProviderModel where
  requestAccounts : Except JSError Unit

/-- Behaviour model of the signer: `signer.getAddress()`. -/
structure SignerModel where
  getAddress : Except JSError String

/-- The module-level mutable Connection State: the three bindings
`provider`, `signer`, `contract` declared at the top of the file. -/
structure ConnState where
  provider : Option ProviderModel
  signer : Option SignerModel
  contract : Option ContractModel

/-- The all-absent Connection State (`provider = signer = contract = null`). -/
def ConnState.allAbsent : ConnState := ⟨none, none, none⟩

/-- The scanning loop inside `getEvent`: walk the receipt logs in order,
decode each with `parse` (skipping entries that do not decode), and return
the first decoded event whose name equals `eventName`. -/
def findEventIn (parse : Log → Option Event) (logs : List Log)
    (eventName : String) : Option Event :=
  match logs with
  | [] => none
  | log :: rest =>
    match parse log with
    | some ev =>
      if ev.name = eventName then some ev else findEventIn parse rest eventName
    | none => findEventIn parse rest eventName

/-- Whether `log` decodes (under `parse`) to an event named `name`. -/
def decodesTo (parse : Log → Option Event) (name : String) (log : Log) : Bool :=
  match parse log with
  | some ev => ev.name = name
  | none => false

/-- Embedding of `getEvent(tx, eventName)`. `c` is the module-level
`contract` binding (`contract?.interface.parseLog` yields `undefined`, hence
no match, when `c = none`); `tx` is `none` when the caller passed
`undefined` (then `tx.wait()` raises a `TypeError`). `receipt?.logs` is
falsy exactly when `wait` resolved to `null`. -/
def getEvent (c : Option ContractModel) (tx : Option TxModel)
    (eventName : String) : Except JSError (Option Event) :=
  match tx with
  | none => .error (.typeError "Cannot read properties of undefined (reading wait)")
  | some t =>
    match t.wait with
    | .error e => .error e
    | .ok none => .ok none
    | .ok (some receipt) =>
      .ok (findEventIn
        (fun log =>
          match c with
          | none => none
          | some cm => cm.parseLog log)
        receipt.logs eventName)

/-- The mint result record `TokenDetails`. `tokenId` is
`Number(event.args[0])`, so a `JSNum`; `cidHash` is a string in every path
the source constructs (`some`), `none` standing for a JavaScript
`undefined` slot (range queries can produce it when the contract response
arrays disagree in length). -/
structure TokenDetails where
  tokenId : JSNum
  cidHash : Option String
  deriving DecidableEq, Repr

/-- The JavaScript `Number(args[0])`: `NaN` when the argument list is empty
(`args[0]` is `undefined`), the first argument otherwise. -/
def jsNumberFirstArg : List Int → JSNum
  | [] => .nan
  | a :: _ => .int a

/-- Embedding of `mintToken(cidHash, encryptedFileKey)`. The `try` body
submits the transaction via `contract?.mintToken` (yielding `undefined`
when the binding is absent), extracts the `TokenMinted` event, throws
`Error("TokenMinted event not found.")` when it is absent, and otherwise
builds the `TokenDetails`. The `catch` logs and re-throws, so it is the
identity on the error. -/
def mintToken (c : Option ContractModel) (cidHash : String)
    (encryptedFileKey : List FileKey) : Except JSError TokenDetails :=
  let txResponse : Except JSError (Option TxModel) :=
    match c with
    | none => .ok none
    | some cm =>
      match cm.mintToken cidHash encryptedFileKey with
      | .ok tx => .ok (some tx)
      | .error e => .error e
  match txResponse with
  | .error e => .error e
  | .ok tx =>
    match getEvent c tx "TokenMinted" with
    | .error e => .error e
    | .ok none => .error (.error "TokenMinted event not found.")
    | .ok (some ev) => .ok ⟨jsNumberFirstArg ev.args, some cidHash⟩

/-- The index-wise merge performed by
`tokenIds.map((tokenId, index) => ({tokenId, cidHash: cidHashs[index]}))`:
one `TokenDetails` per token id, paired with the cid hash at the same
index (`undefined`, i.e. `none`, when the second array is shorter). -/
def zipDetails : List Int → List String → List TokenDetails
  | [], _ => []
  | t :: ts, cs => ⟨.int t, cs.head?⟩ :: zipDetails ts cs.tail

/-- Embedding of `getTokensInRange(start, count)`: calls
`contract?.getTokensInRange(start, start + count)`; when the binding is
absent the response is `undefined` and `result[0]` raises a `TypeError`.
The `catch` converts every failure to the empty array. -/
def getTokensInRange (c : Option ContractModel) (start count : Int) :
    List TokenDetails :=
  let body : Except JSError (List TokenDetails) :=
    match c with
    | none => .error (.typeError "Cannot read properties of undefined (reading 0)")
    | some cm =>
      match cm.getTokensInRange start (start + count) with
      | .error e => .error e
      | .ok result => .ok (zipDetails result.tokenIds result.cidHashs)
  match body with
  | .ok ts => ts
  | .error _ => []

/-- Embedding of `getSharedTokensInRange(start, count)`; identical shape to
`getTokensInRange` over the `getSharedTokensInRange` contract method. -/
def getSharedTokensInRange (c : Option ContractModel) (start count : Int) :
    List TokenDetails :=
  let body : Except JSError (List TokenDetails) :=
    match c with
    | none => .error (.typeError "Cannot read properties of undefined (reading 0)")
    | some cm =>
      match cm.getSharedTokensInRange start (start + count) with
      | .error e => .error e
      | .ok result => .ok (zipDetails result.tokenIds result.cidHashs)
  match body with
  | .ok ts => ts
  | .error _ => []

/-- Embedding of `getSharedWithAddresses(tokenId)`. With the binding absent
the optional chaining yields `undefined`, which the function returns as-is
(`none`); the `catch` converts a rejection to the empty array. -/
def getSharedWithAddresses (c : Option ContractModel) (tokenId : Int) :
    Option (List String) :=
  let body : Except JSError (Option (List String)) :=
    match c with
    | none => .ok none
    | some cm =>
      match cm.getSharedWithAddresses tokenId with
      | .ok xs => .ok (some xs)
      | .error e => .error e
  match body with
  | .ok v => v
  | .error _ => some []

/-- Embedding of `transferToken(to, tokenId)`: submit, `await tx.wait()`
(a `TypeError` when the binding is absent and `tx` is `undefined`), return
`true`; the `catch` converts every failure to `false`. -/
def transferToken (c : Option ContractModel) (toAddr : String) (tokenId : Int) :
    Bool :=
  let body : Except JSError Bool :=
    match c with
    | none => .error (.typeError "Cannot read properties of undefined (reading wait)")
    | some cm =>
      match cm.transferToken toAddr tokenId with
      | .error e => .error e
      | .ok tx =>
        match tx.wait with
        | .error e => .error e
        | .ok _ => .ok true
  match body with
  | .ok b => b
  | .error _ => false

/-- Embedding of `shareToken(to, tokenId)`. The `try` body first throws
`Error("Recipient list cannot be empty.")` when `to` is empty, then calls
`contract?.shareToken(tokenId, to)` and awaits confirmation; the `catch`
converts every thrown error — the validation error included — to `false`.
The second component of the result instruments the semantics: it records
whether the bound contract's `shareToken` method was invoked. -/
def shareToken (c : Option ContractModel) (toAddrs : List String) (tokenId : Int) :
    Bool × Bool :=
  let body : Except JSError Bool × Bool :=
    if toAddrs.length = 0 then
      (.error (.error "Recipient list cannot be empty."), false)
    else
      match c with
      | none =>
        (.error (.typeError "Cannot read properties of undefined (reading wait)"),
         false)
      | some cm =>
        match cm.shareToken tokenId toAddrs with
        | .error e => (.error e, true)
        | .ok tx =>
          match tx.wait with
          | .error e => (.error e, true)
          | .ok _ => (.ok true, true)
  match body with
  | (.ok b, invoked) => (b, invoked)
  | (.error _, invoked) => (false, invoked)

/-- Embedding of `burnToken(tokenId, limitNumberOfSharedWith)`: submit, log
`tx.hash` (reading `hash` of `undefined` raises the `TypeError` when the
binding is absent), await confirmation, return `true`; `catch` yields
`false`. -/
def burnToken (c : Option ContractModel) (tokenId limitNumberOfSharedWith : Int) :
    Bool :=
  let body : Except JSError Bool :=
    match c with
    | none => .error (.typeError "Cannot read properties of undefined (reading hash)")
    | some cm =>
      match cm.burnToken tokenId limitNumberOfSharedWith with
      | .error e => .error e
      | .ok tx =>
        match tx.wait with
        | .error e => .error e
        | .ok _ => .ok true
  match body with
  | .ok b => b
  | .error _ => false

/-- Embedding of `getSupply()`: returns `Number(await contract?.getSupply())`.
With the binding absent the awaited value is `undefined` and
`Number(undefined)` is `NaN` — no exception reaches the `catch`. The
`catch` logs and re-throws, so it is the identity on errors. -/
def getSupply (c : Option ContractModel) : Except JSError JSNum :=
  match c with
  | none => .ok .nan
  | some cm =>
    match cm.getSupply with
    | .ok n => .ok (.int n)
    | .error e => .error e

/-- Embedding of `getSharedWithSupply()`; same shape as `getSupply`. -/
def getSharedWithSupply (c : Option ContractModel) : Except JSError JSNum :=
  match c with
  | none => .ok .nan
  | some cm =>
    match cm.getSharedWithSupply with
    | .ok n => .ok (.int n)
    | .error e => .error e

/-- Embedding of `reencrypt(tokenId, publicKey, signature)`: a falsy
response (`undefined`, in particular when the binding is absent) is
reported and converted to the empty array; the `catch` also yields the
empty array. -/
def reencrypt (c : Option ContractModel) (tokenId : Int) (publicKey : FileKey)
    (signature : String) : List String :=
  let body : Except JSError (List String) :=
    match c with
    | none => .ok []
    | some cm =>
      match cm.reencrypt tokenId publicKey signature with
      | .error e => .error e
      | .ok none => .ok []
      | .ok (some data) => .ok data
  match body with
  | .ok xs => xs
  | .error _ => []

/-- Embedding of `revokeTokenAccess(tokenId, userAddress)`: submit, await
confirmation, `true`; `catch` yields `false`. -/
def revokeTokenAccess (c : Option ContractModel) (tokenId : Int)
    (userAddress : String) : Bool :=
  let body : Except JSError Bool :=
    match c with
    | none => .error (.typeError "Cannot read properties of undefined (reading wait)")
    | some cm =>
      match cm.revokeTokenAccess tokenId userAddress with
      | .error e => .error e
      | .ok tx =>
        match tx.wait with
        | .error e => .error e
        | .ok _ => .ok true
  match body with
  | .ok b => b
  | .error _ => false

/-- Embedding of `revokeAllSharedAccess(tokenId, limitNumberOfSharedWith)`. -/
def revokeAllSharedAccess (c : Option ContractModel)
    (tokenId limitNumberOfSharedWith : Int) : Bool :=
  let body : Except JSError Bool :=
    match c with
    | none => .error (.typeError "Cannot read properties of undefined (reading wait)")
    | some cm =>
      match cm.revokeAllSharedAccess tokenId limitNumberOfSharedWith with
      | .error e => .error e
      | .ok tx =>
        match tx.wait with
        | .error e => .error e
        | .ok _ => .ok true
  match body with
  | .ok b => b
  | .error _ => false

/-- Embedding of `getMaxUsersToRemove()`: returns
`await contract?.MAX_USERS_TO_REMOVE()` as-is. With the binding absent the
optional chaining yields `undefined` (`none`) without any exception, so the
`catch` — which would return `0` — is not reached. -/
def getMaxUsersToRemove (c : Option ContractModel) : Option Int :=
  let body : Except JSError (Option Int) :=
    match c with
    | none => .ok none
    | some cm =>
      match cm.maxUsersToRemove with
      | .ok n => .ok (some n)
      | .error e => .error e
  match body with
  | .ok v => v
  | .error _ => some 0

/-- Embedding of `getAccount()`: when both `provider` and `signer` are
bound, re-request account access and return the signer address (the empty
string when the address is falsy or any step rejects); otherwise the empty
string. -/
def getAccount (s : ConnState) : String :=
  match s.provider, s.signer with
  | some p, some sg =>
    let body : Except JSError String :=
      match p.requestAccounts with
      | .error e => .error e
      | .ok _ =>
        match sg.getAddress with
        | .error e => .error e
        | .ok account => if account = "" then .ok "" else .ok account
    match body with
    | .ok a => a
    | .error _ => ""
  | _, _ => ""

/-- Behaviour model of the execution environment seen by
`initializeProviderAndSigner`: whether `window.ethereum` is present, and
the outcome of each step of the binding sequence (`new BrowserProvider`,
`eth_requestAccounts`, `getSigner`, `new Contract`). -/
structure InitEnv where
  hasEthereum : Bool
  mkProvider : Except JSError ProviderModel
  requestAccounts : Except JSError Unit
  getSigner : Except JSError SignerModel
  mkContract : Except JSError ContractModel

/-- Embedding of `initializeProviderAndSigner()`. The module bindings are
assigned in sequence inside the `try`; when `window.ethereum` is absent, or
when any step throws, the handler assigns `null` to all three. The whole
body is wrapped in `try`/`catch`, so the function never propagates an
exception: its result is always a `ConnState`, never an error. -/
def initProviderAndSigner (env : InitEnv) (s : ConnState) : ConnState :=
  if env.hasEthereum then
    match env.mkProvider with
    | .error _ => ConnState.allAbsent
    | .ok p =>
      let s1 : ConnState := { s with provider := some p }
      match env.requestAccounts with
      | .error _ => ConnState.allAbsent
      | .ok _ =>
        match env.getSigner with
        | .error _ => ConnState.allAbsent
        | .ok sg =>
          let s2 : ConnState := { s1 with signer := some sg }
          match env.mkContract with
          | .error _ => ConnState.allAbsent
          | .ok cm => { s2 with contract := some cm }
  else
    ConnState.allAbsent

/-- One invocation of an exported function of the module, together with its
arguments: the operation alphabet of the client. -/
inductive Op where
  | getAccount
  | mintToken (cidHash : String) (encryptedFileKey : List FileKey)
  | getTokensInRange (start count : Int)
  | getSharedTokensInRange (start count : Int)
  | getSharedWithAddresses (tokenId : Int)
  | transferToken (toAddr : String) (tokenId : Int)
  | shareToken (toAddrs : List String) (tokenId : Int)
  | burnToken (tokenId limitNumberOfSharedWith : Int)
  | getSupply
  | getSharedWithSupply
  | reencrypt (tokenId : Int) (publicKey : FileKey) (signature : String)
  | revokeTokenAccess (tokenId : Int) (userAddress : String)
  | revokeAllSharedAccess (tokenId limitNumberOfSharedWith : Int)
  | getMaxUsersToRemove

/-- The value an exported function returns to its caller. -/
inductive OpResult where
  | str (a : String)
  | flag (b : Bool)
  | flagInvoked (b invoked : Bool)
  | tokens (ts : List TokenDetails)
  | strings (xs : Option (List String))
  | numOrThrow (r : Except JSError JSNum)
  | detailsOrThrow (r : Except JSError TokenDetails)
  | maybeNum (r : Option Int)

/-- Transition semantics of the module: running one exported operation from
Connection State `s` yields the caller-visible result and the Connection
State left behind. Each branch forwards to the embedding of the matching
function; none of the function bodies assigns the module bindings, which the
frame theorem below makes explicit. -/
def step (s : ConnState) : Op → OpResult × ConnState
  | .getAccount => (.str (getAccount s), s)
  | .mintToken cid keys => (.detailsOrThrow (mintToken s.contract cid keys), s)
  | .getTokensInRange start count =>
      (.tokens (getTokensInRange s.contract start count), s)
  | .getSharedTokensInRange start count =>
      (.tokens (getSharedTokensInRange s.contract start count), s)
  | .getSharedWithAddresses tokenId =>
      (.strings (getSharedWithAddresses s.contract tokenId), s)
  | .transferToken toAddr tokenId =>
      (.flag (transferToken s.contract toAddr tokenId), s)
  | .shareToken toAddrs tokenId =>
      (.flagInvoked (shareToken s.contract toAddrs tokenId).1
        (shareToken s.contract toAddrs tokenId).2, s)
  | .burnToken tokenId lim => (.flag (burnToken s.contract tokenId lim), s)
  | .getSupply => (.numOrThrow (getSupply s.contract), s)
  | .getSharedWithSupply => (.numOrThrow (getSharedWithSupply s.contract), s)
  | .reencrypt tokenId pk sig =>
      (.strings (some (reencrypt s.contract tokenId pk sig)), s)
  | .revokeTokenAccess tokenId u =>
      (.flag (revokeTokenAccess s.contract tokenId u), s)
  | .revokeAllSharedAccess tokenId lim =>
      (.flag (revokeAllSharedAccess s.contract tokenId lim), s)
  | .getMaxUsersToRemove => (.maybeNum (getMaxUsersToRemove s.contract), s)

/-! ### Concrete demonstration models

A concrete behaviour of the external collaborators, used by the witness
theorems to evaluate the client on explicit inputs. Log `0` does not decode
against the interface, log `1` decodes to an unrelated `Transfer` event,
log `2` decodes to `TokenMinted` with first argument `7`. -/

/-- Concrete interface decoder for the demonstration contract. -/
def demoParse : Log → Option Event
  | 1 => some ⟨"Transfer", [1, 2]⟩
  | 2 => some ⟨"TokenMinted", [7, 3]⟩
  | _ => none

/-- A transaction whose confirmation receipt carries logs `[0, 1, 2]`. -/
def demoTx : TxModel := ⟨.ok (some ⟨[0, 1, 2]⟩)⟩

/-- A transaction whose confirmation receipt carries no log at all. -/
def demoTxNoLogs : TxModel := ⟨.ok (some ⟨[]⟩)⟩

/-- A concrete behaviour of the deployed contract used by the witnesses. -/
def demoContract : ContractModel where
  parseLog := demoParse
  mintToken := fun _ _ => .ok demoTx
  getTokensInRange := fun _ _ => .ok ⟨[4, 9], ["QmA", "QmB"]⟩
  getSharedTokensInRange := fun _ _ => .ok ⟨[11], ["QmC"]⟩
  getSharedWithAddresses := fun _ => .ok ["0xabc"]
  transferToken := fun _ _ => .ok demoTx
  shareToken := fun _ _ => .ok demoTx
  burnToken := fun _ _ => .ok demoTx
  getSupply := .ok 42
  getSharedWithSupply := .ok 5
  reencrypt := fun _ _ _ => .ok (some ["cipher"])
  revokeTokenAccess := fun _ _ => .ok demoTx
  revokeAllSharedAccess := fun _ _ => .ok demoTx
  maxUsersToRemove := .ok 10

/-- A contract behaviour whose supply queries reject, for the re-throw
witnesses. -/
def demoFailingContract : ContractModel :=
  { demoContract with
    getSupply := .error (.error "network down")
    getSharedWithSupply := .error (.error "network down")
    mintToken := fun _ _ => .ok demoTxNoLogs }

/-! ### Helper lemmas about the scanning loop and the index-wise merge -/

/-- Scanning a log list headed by entries that do not decode to `name`
returns the first entry that does. -/
theorem findEventIn_first_match (parse : Log → Option Event) (name : String)
    (pre : List Log) (log : Log) (post : List Log) (ev : Event)
    (hpre : pre.all (fun l => !(decodesTo parse name l)) = true)
    (hlog : parse log = some ev) (hname : ev.name = name) :
    findEventIn parse (pre ++ log :: post) name = some ev := by
  induction pre with
  | nil =>
    simp [findEventIn, hlog, hname]
  | cons a as ih =>
    have ha : decodesTo parse name a = false := by
      have := (List.all_eq_true.mp hpre) a (List.mem_cons_self a as)
      simpa using this
    have has : as.all (fun l => !(decodesTo parse name l)) = true := by
      rw [List.all_eq_true] at hpre ⊢
      exact fun x hx => hpre x (List.mem_cons_of_mem a hx)
    have hrec := ih has
    simp only [List.cons_append, findEventIn]
    unfold decodesTo at ha
    cases hpa : parse a with
    | none => exact hrec
    | some ev2 =>
      rw [hpa] at ha
      simp only [decide_eq_false_iff_not] at ha
      simpa [ha] using hrec

/-- Scanning a log list none of whose entries decodes to `name` returns
no event. -/
theorem findEventIn_none_of_all (parse : Log → Option Event) (name : String)
    (logs : List Log)
    (h : ∀ l ∈ logs, decodesTo parse name l = false) :
    findEventIn parse logs name = none := by
  induction logs with
  | nil => rfl
  | cons a as ih =>
    have ha := h a (List.mem_cons_self a as)
    have has := ih fun x hx => h x (List.mem_cons_of_mem a hx)
    simp only [findEventIn]
    unfold decodesTo at ha
    cases hpa : parse a with
    | none => exact has
    | some ev2 =>
      rw [hpa] at ha
      simp only [decide_eq_false_iff_not] at ha
      simpa [ha] using has

/-- Scanning with a decoder that never decodes returns no event. -/
theorem findEventIn_noDecoder (logs : List Log) (name : String) :
    findEventIn (fun _ => none) logs name = none :=
  findEventIn_none_of_all _ _ _ fun _ _ => rfl

/-- The index-wise merge yields one entry per token id. -/
theorem zipDetails_length (ts : List Int) (cs : List String) :
    (zipDetails ts cs).length = ts.length := by
  induction ts generalizing cs with
  | nil => rfl
  | cons t ts ih => simp [zipDetails, ih]

/-- The entry of the index-wise merge at position `i` pairs the `i`-th token
id with the `i`-th cid hash. -/
theorem zipDetails_getElem? (ts : List Int) (cs : List String) (i : Nat) :
    (zipDetails ts cs)[i]? = (ts[i]?).map fun t => ⟨.int t, cs[i]?⟩ := by
  induction ts generalizing cs i with
  | nil => simp [zipDetails]
  | cons t ts ih =>
    cases i with
    | zero =>
      cases cs <;> simp [zipDetails]
    | succ n =>
      cases cs with
      | nil => simpa [zipDetails] using ih [] n
      | cons c cs => simpa [zipDetails] using ih cs n

/-! ### Claim theorems -/

/-- C4: for every contract behaviour, transaction handle and event name,
`getEvent` scans the confirmation receipt logs in order and returns the
first decoded event whose name equals `eventName`: it equals the scanning
loop on the receipt logs; with an empty log list it returns `null` without
raising; when the logs split as `pre ++ log :: post` with no entry of `pre`
decoding to `eventName` and `log` decoding to an event named `eventName`,
that event is returned (undecodable and non-matching entries are skipped
silently); when no entry decodes to `eventName` it returns `null`; and when
the receipt itself is `null` (no logs) it returns `null` without raising. -/
theorem getEvent_scans_logs_in_order (c : ContractModel) (tx : TxModel)
    (eventName : String) :
    (∀ r : Receipt, tx.wait = .ok (some r) →
      (getEvent (some c) (some tx) eventName
          = .ok (findEventIn c.parseLog r.logs eventName))
      ∧ (r.logs = [] → getEvent (some c) (some tx) eventName = .ok none)
      ∧ (∀ pre log post ev, r.logs = pre ++ log :: post →
          pre.all (fun l => !(decodesTo c.parseLog eventName l)) = true →
          c.parseLog log = some ev → ev.name = eventName →
          getEvent (some c) (some tx) eventName = .ok (some ev))
      ∧ ((∀ l ∈ r.logs, decodesTo c.parseLog eventName l = false) →
          getEvent (some c) (some tx) eventName = .ok none))
    ∧ (tx.wait = .ok none → getEvent (some c) (some tx) eventName = .ok none) := by
  constructor
  · intro r hw
    have hbase : getEvent (some c) (some tx) eventName
        = .ok (findEventIn c.parseLog r.logs eventName) := by
      simp only [getEvent, hw]
    refine ⟨hbase, ?_, ?_, ?_⟩
    · intro hnil
      rw [hbase, hnil]
      rfl
    · intro pre log post ev hlogs hpre hdec hname
      rw [hbase, hlogs, findEventIn_first_match c.parseLog eventName pre log post ev hpre hdec hname]
    · intro hnone
      rw [hbase, findEventIn_none_of_all c.parseLog eventName r.logs hnone]
  · intro hw
    simp only [getEvent, hw]

/-- C4 witness: on the demonstration receipt with logs `[0, 1, 2]` —
log `0` undecodable, log `1` an unrelated `Transfer`, log `2` the
`TokenMinted(7, 3)` event — `getEvent` returns the `TokenMinted` event,
and on a receipt with no logs it returns `null`. -/
theorem getEvent_scans_logs_in_order_witness :
    getEvent (some demoContract) (some demoTx) "TokenMinted"
      = .ok (some ⟨"TokenMinted", [7, 3]⟩)
    ∧ getEvent (some demoContract) (some demoTxNoLogs) "TokenMinted" = .ok none := by
  constructor
  · exact ((getEvent_scans_logs_in_order demoContract demoTx "TokenMinted").1
      ⟨[0, 1, 2]⟩ rfl).2.2.1 [0, 1] 2 [] ⟨"TokenMinted", [7, 3]⟩ rfl (by decide) rfl rfl
  · exact ((getEvent_scans_logs_in_order demoContract demoTxNoLogs "TokenMinted").1
      ⟨[]⟩ rfl).2.1 rfl

/-- C10: when the module-level contract binding is absent, the optional
chained decode of every log yields no event, so `getEvent` returns `null`
for every transaction handle and event name, however many logs the
confirmation receipt contains (and also when the receipt is `null`). -/
theorem getEvent_absent_contract_null (tx : TxModel) (eventName : String)
    (r : Option Receipt) (hw : tx.wait = .ok r) :
    getEvent none (some tx) eventName = .ok none := by
  simp only [getEvent, hw]
  cases r with
  | none => rfl
  | some receipt =>
    simp [findEventIn_noDecoder]

/-- C10 witness: with the contract binding absent, the demonstration
transaction whose receipt holds three logs (one of which decodes to
`TokenMinted` under the bound interface) yields no event. -/
theorem getEvent_absent_contract_null_witness :
    getEvent none (some demoTx) "TokenMinted" = .ok none :=
  getEvent_absent_contract_null demoTx "TokenMinted" (some ⟨[0, 1, 2]⟩) rfl

/-- C1: whenever the submitted mint transaction confirms and its receipt
logs split as `pre ++ log :: post` with no entry of `pre` decoding to a
`TokenMinted` event and `log` decoding against the bound interface to a
`TokenMinted` event whose first argument is `n`, `mintToken(cidHash, keys)`
returns the record with `tokenId = n` and the same `cidHash`. -/
theorem mintToken_returns_minted_details (c : ContractModel) (cidHash : String)
    (keys : List FileKey) (tx : TxModel) (r : Receipt)
    (pre : List Log) (log : Log) (post : List Log) (ev : Event)
    (n : Int) (rest : List Int)
    (hsubmit : c.mintToken cidHash keys = .ok tx)
    (hw : tx.wait = .ok (some r))
    (hlogs : r.logs = pre ++ log :: post)
    (hpre : pre.all (fun l => !(decodesTo c.parseLog "TokenMinted" l)) = true)
    (hdec : c.parseLog log = some ev)
    (hname : ev.name = "TokenMinted")
    (hargs : ev.args = n :: rest) :
    mintToken (some c) cidHash keys = .ok ⟨.int n, some cidHash⟩ := by
  have hge : getEvent (some c) (some tx) "TokenMinted" = .ok (some ev) := by
    simp only [getEvent, hw, hlogs]
    rw [findEventIn_first_match c.parseLog "TokenMinted" pre log post ev hpre hdec hname]
  simp only [mintToken, hsubmit, hge, hargs, jsNumberFirstArg]

/-- C1 witness: the end-to-end scenario — `mintToken("Qm123", [bytes])` on a
confirmed transaction whose receipt log decodes to `TokenMinted(args = [7, 3])`
yields `tokenId = 7`, `cidHash = "Qm123"`. -/
theorem mintToken_returns_minted_details_witness :
    mintToken (some demoContract) "Qm123" [[1, 2, 3]]
      = .ok ⟨.int 7, some "Qm123"⟩ :=
  mintToken_returns_minted_details demoContract "Qm123" [[1, 2, 3]] demoTx
    ⟨[0, 1, 2]⟩ [0, 1] 2 [] ⟨"TokenMinted", [7, 3]⟩ 7 [3]
    rfl rfl rfl (by decide) rfl rfl rfl

/-- C3: whenever the submitted mint transaction confirms but no receipt log
decodes to a `TokenMinted` event (and also when the confirmation receipt is
`null`), `mintToken` raises the distinguishable
`Error("TokenMinted event not found.")` and returns no `TokenDetails`. -/
theorem mintToken_event_not_found_error (c : ContractModel) (cidHash : String)
    (keys : List FileKey) (tx : TxModel)
    (hsubmit : c.mintToken cidHash keys = .ok tx) :
    (∀ r : Receipt, tx.wait = .ok (some r) →
      (∀ l ∈ r.logs, decodesTo c.parseLog "TokenMinted" l = false) →
      mintToken (some c) cidHash keys
          = .error (.error "TokenMinted event not found.")
      ∧ ∀ td, mintToken (some c) cidHash keys ≠ .ok td)
    ∧ (tx.wait = .ok none →
      mintToken (some c) cidHash keys
          = .error (.error "TokenMinted event not found.")
      ∧ ∀ td, mintToken (some c) cidHash keys ≠ .ok td) := by
  constructor
  · intro r hw hnomatch
    have hge : getEvent (some c) (some tx) "TokenMinted" = .ok none := by
      simp only [getEvent, hw]
      rw [findEventIn_none_of_all c.parseLog "TokenMinted" r.logs hnomatch]
    have hmain : mintToken (some c) cidHash keys
        = .error (.error "TokenMinted event not found.") := by
      simp only [mintToken, hsubmit, hge]
    exact ⟨hmain, fun td h => by rw [hmain] at h; exact Except.noConfusion h⟩
  · intro hw
    have hge : getEvent (some c) (some tx) "TokenMinted" = .ok none := by
      simp only [getEvent, hw]
    have hmain : mintToken (some c) cidHash keys
        = .error (.error "TokenMinted event not found.") := by
      simp only [mintToken, hsubmit, hge]
    exact ⟨hmain, fun td h => by rw [hmain] at h; exact Except.noConfusion h⟩

/-- C3 witness: on a contract behaviour whose mint transaction confirms with
an empty log list, `mintToken` raises the event-not-found error. -/
theorem mintToken_event_not_found_error_witness :
    mintToken (some demoFailingContract) "Qm123" [[1]]
      = .error (.error "TokenMinted event not found.") :=
  ((mintToken_event_not_found_error demoFailingContract "Qm123" [[1]]
    demoTxNoLogs rfl).1 ⟨[]⟩ rfl (by simp)).1

/-- C2 counterexample: the claim states that `shareToken` with an empty
recipient list fails with a ValidationError raised to the caller, never
swallowed into the boolean `false` result. On the concrete demonstration
contract, the call with an empty list completes normally with the plain
boolean `false` (first component) — the validation error is thrown inside
the `try` block and caught by the operation's own `catch`, so no exception
reaches the caller. The second component confirms the underlying contract
method was not invoked. -/
theorem shareToken_empty_counterexample :
    shareToken (some demoContract) [] 5 = (false, false) := rfl

/-- C2 (amended): for every contract binding and tokenId, `shareToken`
called with an empty recipient list returns `false` without invoking the
underlying contract's `shareToken` method (no side effect occurs): the
ValidationError thrown by the emptiness guard is caught by the operation's
own catch handler and converted into the boolean `false` result, so the
caller observes `false` rather than an exception. -/
theorem shareToken_empty_returns_false_no_call (c : Option ContractModel)
    (tokenId : Int) :
    shareToken c [] tokenId = (false, false) := rfl

/-- C5: for all `start ≥ 0`, `count ≥ 0`, the range queries call the
contract on the interval `[start, start + count)` (the embedded definitions
pass `start` and `start + count`), and — under the unchecked precondition
that the two response arrays have equal length — return one entry per token
id, the `i`-th entry pairing the `i`-th token id with the `i`-th cid hash;
the same index correspondence holds for `getSharedTokensInRange`. -/
theorem rangeQueries_preserve_index_pairing (c : ContractModel)
    (start count : Int) (hstart : 0 ≤ start) (hcount : 0 ≤ count)
    (tids : List Int) (cids : List String)
    (stids : List Int) (scids : List String)
    (h1 : c.getTokensInRange start (start + count) = .ok ⟨tids, cids⟩)
    (h2 : c.getSharedTokensInRange start (start + count) = .ok ⟨stids, scids⟩)
    (hlen1 : tids.length = cids.length)
    (hlen2 : stids.length = scids.length) :
    (getTokensInRange (some c) start count).length = tids.length
    ∧ (∀ (i : Nat) (t : Int) (h : String), tids[i]? = some t → cids[i]? = some h →
        (getTokensInRange (some c) start count)[i]? = some ⟨.int t, some h⟩)
    ∧ (getSharedTokensInRange (some c) start count).length = stids.length
    ∧ (∀ (i : Nat) (t : Int) (h : String), stids[i]? = some t → scids[i]? = some h →
        (getSharedTokensInRange (some c) start count)[i]? = some ⟨.int t, some h⟩) := by
  have e1 : getTokensInRange (some c) start count = zipDetails tids cids := by
    simp only [getTokensInRange, h1]
  have e2 : getSharedTokensInRange (some c) start count = zipDetails stids scids := by
    simp only [getSharedTokensInRange, h2]
  refine ⟨?_, ?_, ?_, ?_⟩
  · rw [e1, zipDetails_length]
  · intro i t h ht hh
    rw [e1, zipDetails_getElem?, ht, hh]
    rfl
  · rw [e2, zipDetails_length]
  · intro i t h ht hh
    rw [e2, zipDetails_getElem?, ht, hh]
    rfl

/-- C5 witness: on the demonstration contract, `getTokensInRange(0, 2)`
returns two entries with entry `1` pairing token id `9` with `"QmB"`, and
`getSharedTokensInRange(0, 2)` returns the single pair `(11, "QmC")`. -/
theorem rangeQueries_preserve_index_pairing_witness :
    ((0 : Int) ≤ 0)
    ∧ ((0 : Int) ≤ 2)
    ∧ (getTokensInRange (some demoContract) 0 2).length = 2
    ∧ (getTokensInRange (some demoContract) 0 2)[1]? = some ⟨.int 9, some "QmB"⟩
    ∧ (getSharedTokensInRange (some demoContract) 0 2).length = 1
    ∧ (getSharedTokensInRange (some demoContract) 0 2)[0]?
        = some ⟨.int 11, some "QmC"⟩ := by
  have h := rangeQueries_preserve_index_pairing demoContract 0 2
    (by decide) (by decide) [4, 9] ["QmA", "QmB"] [11] ["QmC"] rfl rfl rfl rfl
  exact ⟨by decide, by decide, h.1, h.2.1 1 9 "QmB" rfl rfl, h.2.2.1,
    h.2.2.2 0 11 "QmC" rfl rfl⟩

/-- C6: evaluation of the Call Adapter on the all-absent Connection State.
The write operations do return `false` and the range queries the empty
sequence, but `getMaxUsersToRemove` returns `undefined` (`none`), not the
documented `0`, and `getSharedWithAddresses` returns `undefined`, not the
empty sequence: optional chaining short-circuits to `undefined` without any
exception, so the `catch` handlers that would produce `0` (respectively
`[]`) are never reached. -/
theorem absent_connection_defaults :
    getMaxUsersToRemove none = none
    ∧ getMaxUsersToRemove none ≠ some 0
    ∧ (∀ tokenId, getSharedWithAddresses none tokenId = none)
    ∧ (∀ toAddr tokenId, transferToken none toAddr tokenId = false)
    ∧ (∀ start count, getTokensInRange none start count = [])
    ∧ (∀ start count, getSharedTokensInRange none start count = [])
    ∧ (∀ toAddrs tokenId, shareToken none toAddrs tokenId = (false, false))
    ∧ (∀ tokenId lim, burnToken none tokenId lim = false)
    ∧ (∀ tokenId u, revokeTokenAccess none tokenId u = false)
    ∧ (∀ tokenId lim, revokeAllSharedAccess none tokenId lim = false)
    ∧ (∀ tokenId pk sig, reencrypt none tokenId pk sig = []) := by
  refine ⟨rfl, fun h => Option.noConfusion h, fun _ => rfl, fun _ _ => rfl,
    fun _ _ => rfl, fun _ _ => rfl, ?_, fun _ _ => rfl, fun _ _ => rfl,
    fun _ _ => rfl, fun _ _ _ => rfl⟩
  intro toAddrs tokenId
  cases toAddrs <;> rfl

/-- C7 counterexample: with the connection absent, `getSupply` and
`getSharedWithSupply` do not re-throw: each completes normally, returning
`Number(undefined) = NaN` — the caller observes no exception on this failed
call, contradicting the claim that every failure cause (missing connection
included) is re-thrown. -/
theorem supply_absent_connection_counterexample :
    getSupply none = .ok .nan ∧ getSharedWithSupply none = .ok .nan :=
  ⟨rfl, rfl⟩

/-- C7 (amended): when the underlying contract call fails (network error or
contract revert — any rejection of the bound call), `getSupply` and
`getSharedWithSupply` re-throw the error after logging, and on success each
returns the contract's count as an integer; but when the contract binding
is absent, each returns `NaN` normally instead of throwing. -/
theorem supply_rethrows_on_call_failure :
    (∀ (c : ContractModel) e, c.getSupply = .error e →
        getSupply (some c) = .error e)
    ∧ (∀ (c : ContractModel) n, c.getSupply = .ok n →
        getSupply (some c) = .ok (.int n))
    ∧ getSupply none = .ok .nan
    ∧ (∀ (c : ContractModel) e, c.getSharedWithSupply = .error e →
        getSharedWithSupply (some c) = .error e)
    ∧ (∀ (c : ContractModel) n, c.getSharedWithSupply = .ok n →
        getSharedWithSupply (some c) = .ok (.int n))
    ∧ getSharedWithSupply none = .ok .nan := by
  refine ⟨?_, ?_, rfl, ?_, ?_, rfl⟩ <;>
    intro c x h <;> simp [getSupply, getSharedWithSupply, h]

/-- C7 witness: on the failing demonstration contract both supply queries
re-throw the network error, and on the healthy one they return the counts
`42` and `5`. -/
theorem supply_rethrows_on_call_failure_witness :
    getSupply (some demoFailingContract) = .error (.error "network down")
    ∧ getSupply (some demoContract) = .ok (.int 42)
    ∧ getSharedWithSupply (some demoFailingContract)
        = .error (.error "network down")
    ∧ getSharedWithSupply (some demoContract) = .ok (.int 5) :=
  ⟨supply_rethrows_on_call_failure.1 demoFailingContract _ rfl,
   supply_rethrows_on_call_failure.2.1 demoContract 42 rfl,
   supply_rethrows_on_call_failure.2.2.2.1 demoFailingContract _ rfl,
   supply_rethrows_on_call_failure.2.2.2.2.1 demoContract 5 rfl⟩

/-- C8: `initializeProviderAndSigner` (embedded as `initProviderAndSigner`,
whose total result type reflects that the wrapping `try`/`catch` never lets
an exception propagate to the caller) leaves the Connection State either
with provider, signer and contract all present, or all absent — for every
environment behaviour and every prior state, partial initialization is not
observable on completion. -/
theorem connection_all_present_or_all_absent (env : InitEnv) (s : ConnState) :
    (∃ p sg cm, initProviderAndSigner env s = ⟨some p, some sg, some cm⟩)
    ∨ initProviderAndSigner env s = ConnState.allAbsent := by
  cases henv : env.hasEthereum with
  | false =>
    right
    simp [initProviderAndSigner, henv]
  | true =>
    cases hp : env.mkProvider with
    | error e => right; simp [initProviderAndSigner, henv, hp]
    | ok p =>
      cases hr : env.requestAccounts with
      | error e => right; simp [initProviderAndSigner, henv, hp, hr]
      | ok u =>
        cases hs : env.getSigner with
        | error e => right; simp [initProviderAndSigner, henv, hp, hr, hs]
        | ok sg =>
          cases hc : env.mkContract with
          | error e => right; simp [initProviderAndSigner, henv, hp, hr, hs, hc]
          | ok cm =>
            left
            exact ⟨p, sg, cm, by simp [initProviderAndSigner, henv, hp, hr, hs, hc]⟩

/-- C9: every exported operation of the module — `getAccount` and all Call
Adapter operations — leaves the module-level Connection State bindings
(`provider`, `signer`, `contract`) identical before and after the call: the
transition semantics returns the input state unchanged for every operation
and every state. Only `initProviderAndSigner`, which is not an exported
operation, produces a different state. -/
theorem step_preserves_connection_state (s : ConnState) (op : Op) :
    (step s op).2 = s := by
  cases op <;> rfl

end ContractClient
